import Mathlib

/-!
Shallow embedding of the sentiment backend module main.py: the heuristic
fallback scorer, the JSON repair cascade used by the process_text endpoint,
the test_fallback endpoint, and the entry guard of the Deepgram websocket
relay.  Machine floats are modelled as exact rationals; the comparisons the
claims exercise are far from binary rounding boundaries.
-/

unseal Rat.mul Rat.add Rat.sub Rat.inv Rat.ofScientific

namespace Aura

/-- Python max of two numbers: the second argument only when strictly
larger, as the builtin keeps the first argument on ties. -/
def pyMax (a b : ℚ) : ℚ := if a < b then b else a

/-- Python min of two numbers: the second argument only when strictly
smaller. -/
def pyMin (a b : ℚ) : ℚ := if b < a then b else a

/-- Whitespace characters stripped by the Python method str.strip and matched
by the regex whitespace class, restricted to the ASCII range used here. -/
def pyWs (c : Char) : Bool :=
  c = ' ' || c = '\t' || c = '\n' || c = '\r' || c = '\x0b' || c = '\x0c'

/-- Python str.strip: drop leading and trailing whitespace. -/
def pyStripL (cs : List Char) : List Char :=
  ((cs.dropWhile pyWs).reverse.dropWhile pyWs).reverse

def pyStripStr (s : String) : String := String.mk (pyStripL s.toList)

/-- Python substring test, needle in hay. -/
def containsSub : List Char → List Char → Bool
  | [], needle => needle.isEmpty
  | c :: t, needle => needle.isPrefixOf (c :: t) || containsSub t needle

/-- Python str.lower applied characterwise (ASCII case folding). -/
def lowerList (text : String) : List Char := text.toList.map Char.toLower

/-- Strong positive words, weight 2 (main.py line 275). -/
def strong_positive : List String :=
  ["love", "amazing", "fantastic", "excellent", "wonderful", "delighted",
   "ecstatic", "thrilled"]

/-- Moderate positive words, weight 1 (main.py line 277). -/
def moderate_positive : List String :=
  ["happy", "joy", "great", "good", "positive", "excited", "pleased",
   "satisfied", "nice", "fine", "okay", "ok"]

/-- Strong negative words, weight 2 (main.py line 279). -/
def strong_negative : List String :=
  ["hate", "terrible", "awful", "horrible", "disgusting", "devastated",
   "miserable"]

/-- Moderate negative words, weight 1 (main.py line 281). -/
def moderate_negative : List String :=
  ["sad", "angry", "bad", "disappointed", "frustrated", "upset", "worried",
   "fear", "anxious", "depressed", "annoyed"]

/-- Negation markers (main.py line 291); the second entry is the
apostrophized contraction suffix. -/
def negation_words : List String :=
  ["not", "n\x27t", "no", "never", "nothing", "nobody", "nowhere"]

/-- Weighted substring score: weight for every word of ws present in tl. -/
def sumScore (ws : List String) (weight : Nat) (tl : List Char) : Nat :=
  (ws.map (fun w => if containsSub tl w.toList then weight else 0)).sum

def positiveScore (tl : List Char) : Nat :=
  sumScore strong_positive 2 tl + sumScore moderate_positive 1 tl

def negativeScore (tl : List Char) : Nat :=
  sumScore strong_negative 2 tl + sumScore moderate_negative 1 tl

def containsAny (tl : List Char) (ws : List String) : Bool :=
  ws.any (fun w => containsSub tl w.toList)

def hasNegation (tl : List Char) : Bool := containsAny tl negation_words

/-- The pair of positive and negative scores after the global negation flip
(main.py lines 295 to 296). -/
def scoresAfterNegation (tl : List Char) : Nat × Nat :=
  if hasNegation tl then (negativeScore tl, positiveScore tl)
  else (positiveScore tl, negativeScore tl)

def totalScoreOf (text : String) : Nat :=
  (scoresAfterNegation (lowerList text)).1 + (scoresAfterNegation (lowerList text)).2

def countCh (s : String) (c : Char) : Nat := s.toList.count c

/-- Sentiment before clamping, main.py lines 298 to 315.  Python divides two
ints with true division; here the same value is computed in the rationals. -/
def rawSentiment (text : String) : ℚ :=
  if 0 < totalScoreOf text then
    1/2 + ((((scoresAfterNegation (lowerList text)).1 : ℚ) -
        ((scoresAfterNegation (lowerList text)).2 : ℚ)) /
      ((max (totalScoreOf text * 2) 1 : Nat) : ℚ)) * (1/2)
  else
    if countCh text '?' < countCh text '!' then 11/20
    else if countCh text '!' < countCh text '?' then 9/20
    else 1/2

/-- Clamped sentiment, main.py line 318: max(0.0, min(1.0, sentiment)). -/
def sentimentOf (text : String) : ℚ := pyMax 0 (pyMin 1 (rawSentiment text))

def isLowerAZ (c : Char) : Bool := 'a' ≤ c && c ≤ 'z'

/-- Word characters of the ASCII regex word class. -/
def isWordChar (c : Char) : Bool := c.isAlpha || c.isDigit || c = '_'

/-- Scanner realizing re.findall of the word pattern of main.py line 328:
maximal lowercase letter runs of length at least three whose neighbouring
characters, if any, are not word characters (the boundary assertions of the
pattern).  runAcc holds the current letter run reversed; runPrevOk records
whether the character just before the run was a boundary. -/
def pyWordsAux : List Char → Bool → List Char → List (List Char)
  | runAcc, runPrevOk, [] =>
      if runPrevOk = true ∧ 3 ≤ runAcc.length then [runAcc.reverse] else []
  | runAcc, runPrevOk, c :: rest =>
      if isLowerAZ c then
        pyWordsAux (c :: runAcc) runPrevOk rest
      else
        (if runPrevOk = true ∧ 3 ≤ runAcc.length ∧ isWordChar c = false then
          [runAcc.reverse] else [])
          ++ pyWordsAux [] (!isWordChar c) rest

def pyWords (cs : List Char) : List (List Char) := pyWordsAux [] true cs

/-- Stop word set of main.py lines 321 to 325. -/
def stop_words : List String :=
  ["the", "a", "an", "and", "or", "but", "in", "on", "at", "to", "for",
   "of", "with", "by", "is", "are", "was", "were", "be", "been", "being",
   "have", "has", "had", "do", "does", "did", "will", "would", "could",
   "should", "may", "might", "must", "can", "this", "that", "these", "those",
   "i", "you", "he", "she", "it", "we", "they", "me", "him", "her", "us", "them"]

def significantWords (text : String) : List String :=
  ((pyWords (lowerList text)).map (fun cs => String.mk cs)).filter
    (fun w => decide (w ∉ stop_words))

/-- First occurrence order deduplication: the iteration order of the Counter
the code builds from significantWords. -/
def dedupAux (seen : List String) : List String → List String
  | [] => []
  | w :: ws => if w ∈ seen then dedupAux seen ws else w :: dedupAux (w :: seen) ws

def dedupFirstSeen (ws : List String) : List String := dedupAux [] ws

def firstIdx (w : String) : List String → Nat
  | [] => 0
  | x :: t => if x = w then 0 else firstIdx w t + 1

/-- The order realized by Counter.most_common: descending count, ties broken
by first occurrence.  Counter.most_common is documented as a stable
descending sort of the counter items, whose iteration order is first
occurrence order; on the duplicate free list produced by dedupFirstSeen the
stable descending sort coincides with sorting by this relation. -/
def kwRel (sig ded : List String) (a b : String) : Prop :=
  sig.count b < sig.count a ∨
    (sig.count a = sig.count b ∧ firstIdx a ded ≤ firstIdx b ded)

instance (sig ded : List String) : DecidableRel (kwRel sig ded) := fun a b => by
  unfold kwRel; infer_instance

instance (sig ded : List String) : IsTotal String (kwRel sig ded) :=
  ⟨by intro a b; unfold kwRel; omega⟩

instance (sig ded : List String) : IsTrans String (kwRel sig ded) :=
  ⟨by intro a b c; unfold kwRel; omega⟩

/-- Keyword extraction, main.py lines 327 to 339.  The final branch models
lines 337 to 339; Python builds that value from an unordered set, but the
branch condition is provably never satisfied (see the C9 theorems), so its
iteration order is immaterial and first occurrence order is used. -/
def sortedKeywords (text : String) : List String :=
  (List.insertionSort
    (kwRel (significantWords text) (dedupFirstSeen (significantWords text)))
    (dedupFirstSeen (significantWords text))).take 5

def keywordsOf (text : String) : List String :=
  if sortedKeywords text = [] ∧ significantWords text ≠ [] then
    (dedupFirstSeen (significantWords text)).take 5
  else sortedKeywords text

def joyful_words : List String := ["happy", "joy", "excited", "love"]
def sad_words : List String := ["sad", "depressed", "down"]
def angry_words : List String := ["angry", "mad", "furious"]
def calm_words : List String := ["calm", "peaceful", "relaxed"]

/-- Threshold emotion of main.py lines 342 to 347, from the clamped
sentiment. -/
def baseEmotion (text : String) : String :=
  if (7 : ℚ)/10 < sentimentOf text then "positive"
  else if sentimentOf text < (3 : ℚ)/10 then "negative"
  else "neutral"

/-- Emotion selection, main.py lines 341 to 357: the threshold value, then
the elif chain of keyword set overrides. -/
def emotionOf (text : String) : String :=
  if containsAny (lowerList text) joyful_words then "joyful"
  else if containsAny (lowerList text) sad_words then "sad"
  else if containsAny (lowerList text) angry_words then "angry"
  else if containsAny (lowerList text) calm_words then "calm"
  else baseEmotion text

structure SentimentResponse where
  sentiment : ℚ
  keywords : List String
  emotion : String
deriving DecidableEq, Repr

/-- The fallback scorer, main.py lines 262 to 366.  The keyword list is
truncated once more at response construction, mirroring line 364. -/
def fallback_sentiment_analysis (text : String) : SentimentResponse :=
  { sentiment := sentimentOf text
    keywords := (keywordsOf text).take 5
    emotion := emotionOf text }

/-- Spec side counterpart of the keyword tokenizer for claim C6, following
the spec words only: maximal alphabetic runs of length at least three from
the lower cased text, with no boundary condition on neighbouring digits or
underscores. -/
def specAlphaRunsAux : List Char → List Char → List (List Char)
  | runAcc, [] => if 3 ≤ runAcc.length then [runAcc.reverse] else []
  | runAcc, c :: rest =>
      if isLowerAZ c then specAlphaRunsAux (c :: runAcc) rest
      else (if 3 ≤ runAcc.length then [runAcc.reverse] else [])
        ++ specAlphaRunsAux [] rest

def specAlphaRuns (cs : List Char) : List (List Char) := specAlphaRunsAux [] cs

/-- Spec side keyword pipeline for claim C6: same stop word filter, counting
and ordering as the code, but over the spec described alphabetic runs. -/
def specKeywords (text : String) : List String :=
  let sig := ((specAlphaRuns (lowerList text)).map (fun cs => String.mk cs)).filter
    (fun w => decide (w ∉ stop_words))
  let ded := dedupFirstSeen sig
  (List.insertionSort (kwRel sig ded) ded).take 5

/-- JSON values as produced by json.loads.  Numbers carry exact rationals
(Python distinguishes int and float values; both convert with float() and
the distinction is invisible to the endpoint).  Objects keep their fields in
textual order; lookups take the last binding of a key, as a Python dict
built sequentially does. -/
inductive Json where
  | null
  | bool (b : Bool)
  | num (q : ℚ)
  | str (s : String)
  | arr (elems : List Json)
  | obj (fields : List (String × Json))

/-- Python dict lookup on the field list: the last binding of key wins. -/
def objGet (fields : List (String × Json)) (key : String) : Option Json :=
  (fields.reverse.find? (fun p => p.1 == key)).map (fun p => p.2)

def jsonWsC (c : Char) : Bool := c = ' ' || c = '\t' || c = '\n' || c = '\r'

def skipWs (cs : List Char) : List Char := cs.dropWhile jsonWsC

def digitsToNat (ds : List Char) : Nat :=
  ds.foldl (fun a c => a * 10 + (c.toNat - '0'.toNat)) 0

def hexVal (c : Char) : Option Nat :=
  if '0' ≤ c ∧ c ≤ '9' then some (c.toNat - '0'.toNat)
  else if 'a' ≤ c ∧ c ≤ 'f' then some (c.toNat - 'a'.toNat + 10)
  else if 'A' ≤ c ∧ c ≤ 'F' then some (c.toNat - 'A'.toNat + 10)
  else none

/-- Exponent suffix of a numeric literal: optional sign then digits. -/
def parseExpPart (cs : List Char) : Option (ℤ × List Char) :=
  let (esign, cs1) : ℤ × List Char :=
    match cs with
    | '+' :: t => (1, t)
    | '-' :: t => (-1, t)
    | _ => (1, cs)
  let eds := cs1.takeWhile Char.isDigit
  if eds.isEmpty then none
  else some (esign * (digitsToNat eds : ℤ), cs1.dropWhile Char.isDigit)

def applyExp (q : ℚ) (e : ℤ) : ℚ :=
  if 0 ≤ e then q * (10 : ℚ) ^ e.toNat else q / (10 : ℚ) ^ (-e).toNat

/-- JSON number grammar: optional minus, int part without leading zeros,
optional fraction, optional exponent.  The nonstandard NaN and Infinity
extensions Python also accepts are outside the modelled reply space. -/
def parseNumber (cs0 : List Char) : Option (ℚ × List Char) :=
  let (neg, cs1) : Bool × List Char :=
    match cs0 with
    | '-' :: t => (true, t)
    | _ => (false, cs0)
  let ids := cs1.takeWhile Char.isDigit
  let rest1 := cs1.dropWhile Char.isDigit
  if ids.isEmpty then none
  else if 2 ≤ ids.length ∧ ids.head? = some '0' then none
  else
    let mantStep : Option (ℚ × List Char) :=
      match rest1 with
      | '.' :: t =>
          let fds := t.takeWhile Char.isDigit
          if fds.isEmpty then none
          else some ((digitsToNat ids : ℚ) + (digitsToNat fds : ℚ) / (10 : ℚ) ^ fds.length,
                     t.dropWhile Char.isDigit)
      | _ => some ((digitsToNat ids : ℚ), rest1)
    match mantStep with
    | none => none
    | some (m, rest2) =>
      let signed := if neg then -m else m
      match rest2 with
      | 'e' :: t =>
          match parseExpPart t with
          | none => none
          | some (e, rest3) => some (applyExp signed e, rest3)
      | 'E' :: t =>
          match parseExpPart t with
          | none => none
          | some (e, rest3) => some (applyExp signed e, rest3)
      | _ => some (signed, rest2)

/-- Body of a JSON string after the opening quote.  Strict mode: unescaped
control characters are rejected.  A unicode escape becomes the scalar value
directly; surrogate pair recombination is not modelled (the claims only
exercise ASCII replies). -/
def parseStringBody (acc : List Char) : List Char → Option (String × List Char)
  | [] => none
  | '"' :: rest => some (String.mk acc.reverse, rest)
  | '\\' :: e :: rest =>
      match e with
      | '"' => parseStringBody ('"' :: acc) rest
      | '\\' => parseStringBody ('\\' :: acc) rest
      | '/' => parseStringBody ('/' :: acc) rest
      | 'b' => parseStringBody ('\x08' :: acc) rest
      | 'f' => parseStringBody ('\x0c' :: acc) rest
      | 'n' => parseStringBody ('\n' :: acc) rest
      | 'r' => parseStringBody ('\r' :: acc) rest
      | 't' => parseStringBody ('\t' :: acc) rest
      | 'u' =>
          match rest with
          | a :: b :: c :: d :: rest2 =>
            match hexVal a, hexVal b, hexVal c, hexVal d with
            | some x, some y, some z, some w =>
                parseStringBody (Char.ofNat (((x * 16 + y) * 16 + z) * 16 + w) :: acc) rest2
            | _, _, _, _ => none
          | _ => none
      | _ => none
  | c :: rest => if c.toNat < 32 then none else parseStringBody (c :: acc) rest

mutual

/-- Recursive descent JSON value, fueled.  Every recursive call is made
after at least one input character has been consumed, so the generous fuel
passed by jsonParse never runs out on its input. -/
def parseValue : Nat → List Char → Option (Json × List Char)
  | 0, _ => none
  | Nat.succ fuel, cs =>
    match skipWs cs with
    | 't' :: 'r' :: 'u' :: 'e' :: rest => some (.bool true, rest)
    | 'f' :: 'a' :: 'l' :: 's' :: 'e' :: rest => some (.bool false, rest)
    | 'n' :: 'u' :: 'l' :: 'l' :: rest => some (.null, rest)
    | '"' :: rest => (parseStringBody [] rest).map (fun p => (.str p.1, p.2))
    | '[' :: rest =>
        (match skipWs rest with
         | ']' :: r2 => some (.arr [], r2)
         | r1 =>
            match parseElems fuel r1 with
            | some (es, r2) => some (.arr es, r2)
            | none => none)
    | '{' :: rest =>
        (match skipWs rest with
         | '}' :: r2 => some (.obj [], r2)
         | r1 =>
            match parseMembers fuel r1 with
            | some (fs, r2) => some (.obj fs, r2)
            | none => none)
    | other => (parseNumber other).map (fun p => (.num p.1, p.2))

/-- Comma separated array elements up to the closing bracket. -/
def parseElems : Nat → List Char → Option (List Json × List Char)
  | 0, _ => none
  | Nat.succ fuel, cs =>
    match parseValue fuel cs with
    | none => none
    | some (v, rest) =>
      match skipWs rest with
      | ',' :: r2 =>
          (match parseElems fuel r2 with
           | some (vs, r3) => some (v :: vs, r3)
           | none => none)
      | ']' :: r2 => some ([v], r2)
      | _ => none

/-- Comma separated object members up to the closing brace. -/
def parseMembers : Nat → List Char → Option (List (String × Json) × List Char)
  | 0, _ => none
  | Nat.succ fuel, cs =>
    match skipWs cs with
    | '"' :: rest =>
      (match parseStringBody [] rest with
       | none => none
       | some (k, r1) =>
         match skipWs r1 with
         | ':' :: r2 =>
           (match parseValue fuel r2 with
            | none => none
            | some (v, r3) =>
              match skipWs r3 with
              | ',' :: r4 =>
                  (match parseMembers fuel r4 with
                   | some (fs, r5) => some ((k, v) :: fs, r5)
                   | none => none)
              | '}' :: r4 => some ([(k, v)], r4)
              | _ => none)
         | _ => none)
    | _ => none

end

/-- json.loads: parse one value and require only whitespace after it. -/
def jsonParse (cs : List Char) : Option Json :=
  match parseValue (2 * cs.length + 4) cs with
  | some (v, rest) => if (skipWs rest).isEmpty then some v else none
  | none => none

/-- Scan state for one nesting level of braces: reports whether the string
is a concatenation of brace free runs and complete one level brace groups,
the language of the bracket part of the extraction pattern of
main.py line 159. -/
def oneLevelAux : Bool → List Char → Bool
  | false, [] => true
  | true, [] => false
  | false, '{' :: t => oneLevelAux true t
  | false, '}' :: _ => false
  | false, _ :: t => oneLevelAux false t
  | true, '}' :: t => oneLevelAux false t
  | true, '{' :: _ => false
  | true, _ :: t => oneLevelAux true t

def oneLevel (cs : List Char) : Bool := oneLevelAux false cs

def sentimentLit : List Char := "\"sentiment\"".toList

/-- Interior language of the extraction pattern: a one level string, the
quoted sentiment key at nesting depth zero, then a one level string. -/
def interiorOK (cs : List Char) : Bool :=
  (List.range (cs.length + 1)).any (fun k =>
    oneLevel (cs.take k) && sentimentLit.isPrefixOf (cs.drop k) &&
      oneLevel (cs.drop (k + sentimentLit.length)))

def matchSlice (cs : List Char) (i j : Nat) : Bool :=
  decide (i < j) && cs[i]? == some '{' && cs[j]? == some '}' &&
    interiorOK ((cs.drop (i + 1)).take (j - i - 1))

/-- Model of re.search for the JSON extraction pattern of main.py line 159.
The search is leftmost in the start position, matching the engine; for a
fixed start position the end position is unique, because a valid interior
cannot extend past a closing brace at depth zero, so no greedy or
backtracking choice is left to model. -/
def jsonGroup (cs : List Char) : Option (List Char) :=
  (List.range cs.length).findSome? (fun i =>
    ((List.range cs.length).find? (fun j => matchSlice cs i j)).map
      (fun j => (cs.drop i).take (j - i + 1)))

/-- Python float() on a string: surrounding whitespace stripped, optional
sign, decimal digits with optional point and exponent.  The inf and nan
spellings and underscore separators Python also accepts are outside the
modelled space. -/
def pyFloat (cs0 : List Char) : Option ℚ :=
  let cs1 := pyStripL cs0
  let (neg, cs2) : Bool × List Char :=
    match cs1 with
    | '-' :: t => (true, t)
    | '+' :: t => (false, t)
    | _ => (false, cs1)
  let ids := cs2.takeWhile Char.isDigit
  let r1 := cs2.dropWhile Char.isDigit
  let mant : Option (ℚ × List Char) :=
    match r1 with
    | '.' :: t =>
        let fds := t.takeWhile Char.isDigit
        if ids.isEmpty ∧ fds.isEmpty then none
        else some ((digitsToNat ids : ℚ) + (digitsToNat fds : ℚ) / (10 : ℚ) ^ fds.length,
                   t.dropWhile Char.isDigit)
    | _ => if ids.isEmpty then none else some ((digitsToNat ids : ℚ), r1)
  match mant with
  | none => none
  | some (m, r2) =>
    let signed := if neg then -m else m
    match r2 with
    | [] => some signed
    | 'e' :: t =>
        (match parseExpPart t with
         | some (e, []) => some (applyExp signed e)
         | _ => none)
    | 'E' :: t =>
        (match parseExpPart t with
         | some (e, []) => some (applyExp signed e)
         | _ => none)
    | _ => none

/-- Leftmost search for a literal followed by a suffix pattern given by the
continuation after. -/
def searchPat {α : Type} (lit : List Char) (after : List Char → Option α) :
    List Char → Option α
  | [] => none
  | c :: t =>
    match (if lit.isPrefixOf (c :: t) then after ((c :: t).drop lit.length) else none) with
    | some r => some r
    | none => searchPat lit after t

/-- Suffix of the sentiment extraction pattern of main.py line 175:
whitespace, colon, whitespace, then a maximal nonempty run of digits and
points. -/
def afterSentiment (cs : List Char) : Option (List Char) :=
  match cs.dropWhile pyWs with
  | ':' :: r1 =>
      let r2 := r1.dropWhile pyWs
      let tok := r2.takeWhile (fun c => c.isDigit || c = '.')
      if tok.isEmpty then none else some tok
  | _ => none

/-- Suffix of the keywords extraction pattern of main.py line 176: colon,
opening bracket, then the lazily matched capture up to the first closing
bracket, which must exist. -/
def afterKeywords (cs : List Char) : Option (List Char) :=
  match cs.dropWhile pyWs with
  | ':' :: r1 =>
    (match r1.dropWhile pyWs with
     | '[' :: r2 =>
        if r2.any (fun c => c = ']') then some (r2.takeWhile (fun c => c ≠ ']'))
        else none
     | _ => none)
  | _ => none

/-- Suffix of the emotion extraction pattern of main.py line 177: colon then
a quoted nonempty capture. -/
def afterEmotion (cs : List Char) : Option String :=
  match cs.dropWhile pyWs with
  | ':' :: r1 =>
    (match r1.dropWhile pyWs with
     | '"' :: r2 =>
        let item := r2.takeWhile (fun c => c ≠ '"')
        if item.isEmpty then none
        else
          match r2.drop item.length with
          | '"' :: _ => some (String.mk item)
          | _ => none
     | _ => none)
  | _ => none

/-- State machine for re.findall of the quoted item pattern of main.py
line 186: nonempty quoted runs, scanned left to right without overlap.  An
immediately repeated quote restarts a candidate at the second quote, as the
backtracking engine does. -/
def quotedItemsSM : Option (List Char) → List Char → List String
  | _, [] => []
  | none, '"' :: t => quotedItemsSM (some []) t
  | none, _ :: t => quotedItemsSM none t
  | some acc, '"' :: t =>
      if acc.isEmpty then quotedItemsSM (some []) t
      else String.mk acc.reverse :: quotedItemsSM none t
  | some acc, c :: t => quotedItemsSM (some (c :: acc)) t

def quotedItems (cs : List Char) : List String := quotedItemsSM none cs

def keywordsLit : List Char := "\"keywords\"".toList
def emotionLit : List Char := "\"emotion\"".toList

/-- Error classes of the endpoint, keyed by the HTTP statuses raised in
main.py: 400 for empty text, 500 for a missing model credential, 500 for a
JSONDecodeError escaping the repair code, 500 for any other exception
(float conversion, attribute errors, response validation), 503 for a
fallback failure, which is unreachable since the fallback is pure. -/
inductive ApiError where
  | invalidInput
  | configError
  | parseError
  | processingError
  | serviceUnavailable
deriving DecidableEq, Repr

/-- Field extraction branch, main.py lines 173 to 193.  The only failing
operation is float() on the captured sentiment token; missing pieces take
the documented defaults. -/
def extractSentimentQ (cs : List Char) : Option ℚ :=
  match searchPat sentimentLit afterSentiment cs with
  | none => some (1/2)
  | some tok => pyFloat tok

def extractKeywords (cs : List Char) : List String :=
  match searchPat keywordsLit afterKeywords cs with
  | none => []
  | some cap => quotedItems cap

def extractEmotion (cs : List Char) : String :=
  match searchPat emotionLit afterEmotion cs with
  | none => "neutral"
  | some e => e

def fieldExtract (cs : List Char) : Except ApiError Json :=
  match extractSentimentQ cs with
  | none => .error .processingError
  | some q =>
      .ok (.obj [("sentiment", .num q),
                 ("keywords", .arr ((extractKeywords cs).map Json.str)),
                 ("emotion", .str (extractEmotion cs))])

/-- The repair cascade of main.py lines 157 to 193.  When the extraction
regex found a candidate whose parse fails, the fallback parse of the whole
reply is not guarded: its JSONDecodeError escapes to the handler of
line 217 and becomes a 500 error.  The field extraction branch is reachable
only when no candidate was found. -/
def repair (response : String) : Except ApiError Json :=
  match jsonGroup response.toList with
  | some g =>
      (match jsonParse g with
       | some v => .ok v
       | none =>
          match jsonParse response.toList with
          | some v => .ok v
          | none => .error .parseError)
  | none =>
      match jsonParse response.toList with
      | some v => .ok v
      | none => fieldExtract response.toList

/-- Conversion by float() of the extracted sentiment value.  Lists, objects
and null raise TypeError, caught by the generic handler. -/
def floatOf : Json → Option ℚ
  | .num q => some q
  | .bool b => some (if b then 1 else 0)
  | .str s => pyFloat s.toList
  | _ => none

/-- Response model validation of the keyword list: every element must be a
string (list elements are not coerced), otherwise construction of the
response model raises and the generic handler returns 500. -/
def asStrings : List Json → Option (List String)
  | [] => some []
  | .str s :: t => (asStrings t).map (fun l => s :: l)
  | _ :: _ => none

/-- Normalization of the parsed reply, main.py lines 195 to 213: clamp the
float coerced sentiment, keep keywords only if a list, keep emotion only if
a string, truncate keywords to five, then build the response model.  A non
object reply raises AttributeError at the first get, caught by the generic
handler. -/
def keywordsJson (fields : List (String × Json)) : List Json :=
  match (objGet fields "keywords").getD (.arr []) with
  | .arr l => l
  | _ => []

def emotionStr (fields : List (String × Json)) : String :=
  match (objGet fields "emotion").getD (.str "neutral") with
  | .str s => s
  | _ => "neutral"

def normalizeResult (result : Json) : Except ApiError SentimentResponse :=
  match result with
  | .obj fields =>
    (match floatOf ((objGet fields "sentiment").getD (.num (1/2))) with
     | none => .error .processingError
     | some q =>
       match asStrings ((keywordsJson fields).take 5) with
       | none => .error .processingError
       | some ks => .ok ⟨pyMax 0 (pyMin 1 q), ks, emotionStr fields⟩)
  | _ => .error .processingError

/-- Outcome of the awaited model call: timeout after ten seconds, any
raised error (quota or not, both branches of lines 124 to 134 set the
fallback flag), or a textual reply. -/
inductive ModelOutcome where
  | timeout
  | modelError (msg : String)
  | reply (content : String)
deriving DecidableEq, Repr

/-- The process_text endpoint, main.py lines 80 to 226, as a function of the
request text, whether the model credential is configured, and the outcome of
the model call.  The empty text guard of line 86 runs first; the fallback is
a pure function here, so the 503 branch of line 142 cannot trigger. -/
def process_text (text : String) (apiKeyConfigured : Bool) (outcome : ModelOutcome) :
    Except ApiError SentimentResponse :=
  if text = "" ∨ pyStripStr text = "" then .error .invalidInput
  else if !apiKeyConfigured then .error .configError
  else
    match outcome with
    | .timeout => .ok (fallback_sentiment_analysis text)
    | .modelError _ => .ok (fallback_sentiment_analysis text)
    | .reply content =>
      match repair content with
      | .error e => .error e
      | .ok result => normalizeResult result

/-- The test_fallback endpoint, main.py lines 588 to 598: no validation, the
fallback runs directly; it is pure, so the error branch is unreachable. -/
def test_fallback (text : String) : Except ApiError SentimentResponse :=
  .ok (fallback_sentiment_analysis text)

/-- Observable actions of the relay handler entry, main.py lines 369 to 394,
up to the point where a vendor connection would be opened. -/
inductive RelayAction where
  | acceptClient
  | sendClientText (msgType : String) (message : String)
  | closeClient
  | connectVendor
deriving DecidableEq, Repr

/-- Entry guard of the Deepgram relay as the sequence of actions performed
before any vendor traffic: accept, then either a single structured error
message and a close when the key is missing or too short after stripping,
or the vendor connection attempt. -/
def websocket_deepgram_proxy_entry (deepgramApiKey : Option String) : List RelayAction :=
  RelayAction.acceptClient ::
    (match deepgramApiKey with
     | none => [RelayAction.sendClientText "Error" "DEEPGRAM_API_KEY not configured on server",
                RelayAction.closeClient]
     | some k =>
       if k = "" then
         [RelayAction.sendClientText "Error" "DEEPGRAM_API_KEY not configured on server",
          RelayAction.closeClient]
       else
         if pyStripStr k = "" ∨ (pyStripStr k).length < 20 then
           [RelayAction.sendClientText "Error"
              "DEEPGRAM_API_KEY appears to be invalid (too short or empty)",
            RelayAction.closeClient]
         else [RelayAction.connectVendor])

/-! ### Lemmas about the string utilities -/

theorem mem_of_isPrefixOf {n h : List Char} (hp : n.isPrefixOf h = true) :
    ∀ c ∈ n, c ∈ h := by
  induction n generalizing h with
  | nil => intro c hc; simp at hc
  | cons a as ih =>
    cases h with
    | nil => simp [List.isPrefixOf] at hp
    | cons b bs =>
      simp only [List.isPrefixOf, Bool.and_eq_true, beq_iff_eq] at hp
      intro c hc
      rcases List.mem_cons.mp hc with rfl | hmem
      · rw [hp.1]; exact List.mem_cons_self _ _
      · exact List.mem_cons_of_mem _ (ih hp.2 c hmem)

theorem containsSub_subset {hay needle : List Char} (h : containsSub hay needle = true) :
    ∀ c ∈ needle, c ∈ hay := by
  induction hay with
  | nil =>
    intro c hc
    rw [containsSub, List.isEmpty_iff] at h
    subst h; simp at hc
  | cons a t ih =>
    rw [containsSub, Bool.or_eq_true] at h
    rcases h with hpre | hrec
    · exact mem_of_isPrefixOf hpre
    · intro c hc; exact List.mem_cons_of_mem _ (ih hrec c hc)

theorem containsSub_eq_false {hay needle : List Char}
    (hws : ∀ c ∈ hay, pyWs c = true) {c0 : Char} (hc0 : c0 ∈ needle)
    (hcw : pyWs c0 = false) : containsSub hay needle = false := by
  cases h : containsSub hay needle with
  | false => rfl
  | true =>
    have hmem := containsSub_subset h c0 hc0
    have hws0 := hws c0 hmem
    rw [hcw] at hws0
    exact Bool.noConfusion hws0

theorem sumScore_eq_zero {ws : List String} {k : Nat} {tl : List Char}
    (h : ∀ w ∈ ws, containsSub tl w.toList = false) : sumScore ws k tl = 0 := by
  induction ws with
  | nil => rfl
  | cons w rest ih =>
    have h2 := ih (fun x hx => h x (List.mem_cons_of_mem _ hx))
    simp only [sumScore, List.map_cons, List.sum_cons,
      h w (List.mem_cons_self _ _)] at h2 ⊢
    simpa using h2

theorem pyWs_cases {c : Char} (h : pyWs c = true) :
    c = ' ' ∨ c = '\t' ∨ c = '\n' ∨ c = '\r' ∨ c = '\x0b' ∨ c = '\x0c' := by
  simp only [pyWs, Bool.or_eq_true, decide_eq_true_eq] at h
  tauto

theorem pyWs_toLower {c : Char} (h : pyWs c = true) : Char.toLower c = c := by
  rcases pyWs_cases h with rfl | rfl | rfl | rfl | rfl | rfl <;> decide

theorem pyWs_not_lowerAZ {c : Char} (h : pyWs c = true) : isLowerAZ c = false := by
  rcases pyWs_cases h with rfl | rfl | rfl | rfl | rfl | rfl <;> decide

theorem lowerList_allWs {text : String} (h : text.toList.all pyWs = true) :
    ∀ c ∈ lowerList text, pyWs c = true := by
  intro c hc
  rcases List.mem_map.mp hc with ⟨d, hd, rfl⟩
  have hdw := List.all_eq_true.mp h d hd
  rw [pyWs_toLower hdw]; exact hdw

theorem sumScore_allWs {ws : List String} {k : Nat} {tl : List Char}
    (hws : ∀ c ∈ tl, pyWs c = true)
    (hwords : ∀ w ∈ ws, ∃ c ∈ w.toList, pyWs c = false) :
    sumScore ws k tl = 0 :=
  sumScore_eq_zero fun w hw => by
    rcases hwords w hw with ⟨c, hc, hcf⟩
    exact containsSub_eq_false hws hc hcf

theorem containsAny_allWs {ws : List String} {tl : List Char}
    (hws : ∀ c ∈ tl, pyWs c = true)
    (hwords : ∀ w ∈ ws, ∃ c ∈ w.toList, pyWs c = false) :
    containsAny tl ws = false := by
  unfold containsAny
  rw [List.any_eq_false]
  intro w hw
  rcases hwords w hw with ⟨c, hc, hcf⟩
  simp only [containsSub_eq_false hws hc hcf]
  exact Bool.false_ne_true

theorem nonWs_strong_positive : ∀ w ∈ strong_positive, ∃ c ∈ w.toList, pyWs c = false := by
  decide

theorem nonWs_moderate_positive : ∀ w ∈ moderate_positive, ∃ c ∈ w.toList, pyWs c = false := by
  decide

theorem nonWs_strong_negative : ∀ w ∈ strong_negative, ∃ c ∈ w.toList, pyWs c = false := by
  decide

theorem nonWs_moderate_negative : ∀ w ∈ moderate_negative, ∃ c ∈ w.toList, pyWs c = false := by
  decide

theorem nonWs_negation : ∀ w ∈ negation_words, ∃ c ∈ w.toList, pyWs c = false := by
  decide

theorem nonWs_joyful : ∀ w ∈ joyful_words, ∃ c ∈ w.toList, pyWs c = false := by decide

theorem nonWs_sad : ∀ w ∈ sad_words, ∃ c ∈ w.toList, pyWs c = false := by decide

theorem nonWs_angry : ∀ w ∈ angry_words, ∃ c ∈ w.toList, pyWs c = false := by decide

theorem nonWs_calm : ∀ w ∈ calm_words, ∃ c ∈ w.toList, pyWs c = false := by decide

/-! ### Bounds of the clamp -/

theorem pyClamp_nonneg (q : ℚ) : 0 ≤ pyMax 0 (pyMin 1 q) := by
  unfold pyMax pyMin; split_ifs <;> linarith

theorem pyClamp_le_one (q : ℚ) : pyMax 0 (pyMin 1 q) ≤ 1 := by
  unfold pyMax pyMin; split_ifs <;> linarith

theorem emotionOf_ne_empty (text : String) : emotionOf text ≠ "" := by
  unfold emotionOf baseEmotion
  split_ifs <;> decide

/-! ### Error classes of the repair pipeline -/

theorem fieldExtract_error {cs : List Char} {e : ApiError}
    (h : fieldExtract cs = Except.error e) : e = ApiError.processingError := by
  unfold fieldExtract at h
  split at h
  · injection h with h1; exact h1.symm
  · exact Except.noConfusion h

theorem normalizeResult_error {v : Json} {e : ApiError}
    (h : normalizeResult v = Except.error e) : e = ApiError.processingError := by
  unfold normalizeResult at h
  split at h
  · split at h
    · injection h with h1; exact h1.symm
    · split at h
      · injection h with h1; exact h1.symm
      · exact Except.noConfusion h
  · injection h with h1; exact h1.symm

theorem repair_error {r : String} {e : ApiError}
    (h : repair r = Except.error e) :
    e = ApiError.parseError ∨ e = ApiError.processingError := by
  unfold repair at h
  split at h
  · split at h
    · exact Except.noConfusion h
    · split at h
      · exact Except.noConfusion h
      · injection h with h1; exact Or.inl h1.symm
  · split at h
    · exact Except.noConfusion h
    · exact Or.inr (fieldExtract_error h)

/-! ### Claim theorems -/

/-- C5: process_text fails with InvalidInput, the 400 error, exactly when
the request text is empty or whitespace only after trimming; for any other
text, under every credential configuration and model outcome, the result is
never that error.  In the definition of process_text the emptiness guard
precedes the credential check, the model outcome and the fallback. -/
theorem c5_process_text_invalid_iff (text : String) (key : Bool) (outcome : ModelOutcome) :
    process_text text key outcome = Except.error ApiError.invalidInput ↔
      pyStripStr text = "" := by
  unfold process_text
  by_cases hg : text = "" ∨ pyStripStr text = ""
  · rw [if_pos hg]
    constructor
    · intro _
      rcases hg with rfl | hh
      · rfl
      · exact hh
    · intro _; rfl
  · rw [if_neg hg]
    constructor
    · intro h
      exfalso
      by_cases hk : (!key) = true
      · rw [if_pos hk] at h
        injection h with h1
        exact ApiError.noConfusion h1
      · rw [if_neg hk] at h
        split at h
        · exact Except.noConfusion h
        · exact Except.noConfusion h
        · split at h
          · next e heq =>
              injection h with h1
              subst h1
              rcases repair_error heq with h2 | h2 <;> exact ApiError.noConfusion h2
          · next v heq =>
              exact ApiError.noConfusion (normalizeResult_error h)
    · intro hh
      exact absurd (Or.inr hh) hg

/-- C3: whenever the speech vendor secret is unset, or shorter than twenty
characters after trimming, the relay entry sends the client exactly one
structured Error message and closes the connection, and no vendor connection
is attempted, so zero bytes are forwarded. -/
theorem c3_relay_guard (key : Option String)
    (h : key = none ∨ ∃ k, key = some k ∧ (pyStripStr k).length < 20) :
    ∃ m, websocket_deepgram_proxy_entry key =
        [RelayAction.acceptClient, RelayAction.sendClientText "Error" m,
         RelayAction.closeClient] ∧
      RelayAction.connectVendor ∉ websocket_deepgram_proxy_entry key := by
  rcases h with rfl | ⟨k, rfl, hlen⟩
  · exact ⟨_, rfl, by decide⟩
  · simp only [websocket_deepgram_proxy_entry]
    by_cases hk : k = ""
    · rw [if_pos hk]
      exact ⟨_, rfl, by decide⟩
    · rw [if_neg hk, if_pos (Or.inr hlen)]
      exact ⟨_, rfl, by decide⟩

/-- Witness for C3 at a concrete short key. -/
theorem c3_relay_guard_witness :
    ∃ m, websocket_deepgram_proxy_entry (some "short") =
        [RelayAction.acceptClient, RelayAction.sendClientText "Error" m,
         RelayAction.closeClient] ∧
      RelayAction.connectVendor ∉ websocket_deepgram_proxy_entry (some "short") :=
  c3_relay_guard (some "short") (Or.inr ⟨"short", rfl, by decide⟩)

/-- C4: when the combined weighted score is positive, the fallback sentiment
is one half plus the normalized difference of the scores divided by the
guarded double total, clamped to the unit interval, where the positive and
negative scores are swapped exactly when a negation marker occurs as a
substring of the lower cased text; the example with negation scores at most
one half, the one without scores above it. -/
theorem c4_fallback_formula :
    (∀ text, 0 < totalScoreOf text →
      (fallback_sentiment_analysis text).sentiment =
        pyMax 0 (pyMin 1 (1/2 +
          ((((scoresAfterNegation (lowerList text)).1 : ℚ) -
              ((scoresAfterNegation (lowerList text)).2 : ℚ)) /
            ((max (totalScoreOf text * 2) 1 : ℕ) : ℚ)) * (1/2)))) ∧
    (∀ text, scoresAfterNegation (lowerList text) =
        if hasNegation (lowerList text) = true then
          (negativeScore (lowerList text), positiveScore (lowerList text))
        else (positiveScore (lowerList text), negativeScore (lowerList text))) ∧
    (∀ text, hasNegation (lowerList text) =
        negation_words.any (fun w => containsSub (lowerList text) w.toList)) ∧
    (fallback_sentiment_analysis "I am not happy").sentiment ≤ 1/2 ∧
    1/2 < (fallback_sentiment_analysis "I am happy").sentiment := by
  refine ⟨?_, fun text => rfl, fun text => rfl, by decide, by decide⟩
  intro text ht
  show sentimentOf text = _
  unfold sentimentOf rawSentiment
  rw [if_pos ht]

/-- Witness for C4 at the concrete example without negation. -/
theorem c4_fallback_formula_witness :
    (fallback_sentiment_analysis "I am happy").sentiment =
      pyMax 0 (pyMin 1 (1/2 +
        ((((scoresAfterNegation (lowerList "I am happy")).1 : ℚ) -
            ((scoresAfterNegation (lowerList "I am happy")).2 : ℚ)) /
          ((max (totalScoreOf "I am happy" * 2) 1 : ℕ) : ℚ)) * (1/2))) :=
  c4_fallback_formula.1 "I am happy" (by decide)

/-- C7 counterexample: the text matches both the joyful and the calm keyword
sets; the emotion is joyful, the first matching set in the elif chain, not
calm, the last matching set, so the last match wins reading of the claim is
false. -/
theorem c7_emotion_counterexample :
    containsAny (lowerList "happy and calm") joyful_words = true ∧
    containsAny (lowerList "happy and calm") calm_words = true ∧
    (fallback_sentiment_analysis "happy and calm").emotion = "joyful" ∧
    "joyful" ≠ "calm" := by decide

/-- C7 amended: the emotion is first set by thresholding the clamped
sentiment and then overridden by joyful, sad, angry or calm, the four sets
checked in that fixed priority order with the first match winning. -/
theorem c7_emotion_priority :
    (∀ text, containsAny (lowerList text) joyful_words = true →
      (fallback_sentiment_analysis text).emotion = "joyful") ∧
    (∀ text, containsAny (lowerList text) joyful_words = false →
      containsAny (lowerList text) sad_words = true →
      (fallback_sentiment_analysis text).emotion = "sad") ∧
    (∀ text, containsAny (lowerList text) joyful_words = false →
      containsAny (lowerList text) sad_words = false →
      containsAny (lowerList text) angry_words = true →
      (fallback_sentiment_analysis text).emotion = "angry") ∧
    (∀ text, containsAny (lowerList text) joyful_words = false →
      containsAny (lowerList text) sad_words = false →
      containsAny (lowerList text) angry_words = false →
      containsAny (lowerList text) calm_words = true →
      (fallback_sentiment_analysis text).emotion = "calm") ∧
    (∀ text, containsAny (lowerList text) joyful_words = false →
      containsAny (lowerList text) sad_words = false →
      containsAny (lowerList text) angry_words = false →
      containsAny (lowerList text) calm_words = false →
      (fallback_sentiment_analysis text).emotion =
        (if (7 : ℚ)/10 < sentimentOf text then "positive"
         else if sentimentOf text < (3 : ℚ)/10 then "negative"
         else "neutral")) := by
  refine ⟨?_, ?_, ?_, ?_, ?_⟩
  · intro text h1
    show emotionOf text = _
    unfold emotionOf
    rw [if_pos h1]
  · intro text h1 h2
    show emotionOf text = _
    unfold emotionOf
    rw [if_neg (by simp [h1]), if_pos h2]
  · intro text h1 h2 h3
    show emotionOf text = _
    unfold emotionOf
    rw [if_neg (by simp [h1]), if_neg (by simp [h2]), if_pos h3]
  · intro text h1 h2 h3 h4
    show emotionOf text = _
    unfold emotionOf
    rw [if_neg (by simp [h1]), if_neg (by simp [h2]), if_neg (by simp [h3]),
      if_pos h4]
  · intro text h1 h2 h3 h4
    show emotionOf text = _
    unfold emotionOf
    rw [if_neg (by simp [h1]), if_neg (by simp [h2]), if_neg (by simp [h3]),
      if_neg (by simp [h4])]
    rfl

/-- Witness for C7 at a concrete joyful text. -/
theorem c7_emotion_priority_witness :
    (fallback_sentiment_analysis "so happy").emotion = "joyful" :=
  c7_emotion_priority.1 "so happy" (by decide)

/-- C8: when the combined weighted score is zero the fallback sentiment is
eleven twentieths with strictly more exclamation than question marks, nine
twentieths with strictly more question than exclamation marks, one half
otherwise; the three concrete examples evaluate as stated. -/
theorem c8_punctuation_tiebreak :
    (∀ text, totalScoreOf text = 0 →
      (fallback_sentiment_analysis text).sentiment =
        (if countCh text '?' < countCh text '!' then 11/20
         else if countCh text '!' < countCh text '?' then 9/20
         else (1 : ℚ)/2)) ∧
    (fallback_sentiment_analysis "??").sentiment = 9/20 ∧
    (fallback_sentiment_analysis "!!").sentiment = 11/20 ∧
    (fallback_sentiment_analysis "Hello there friend").sentiment = 1/2 := by
  refine ⟨?_, by decide, by decide, by decide⟩
  intro text ht
  show sentimentOf text = _
  unfold sentimentOf rawSentiment
  rw [if_neg (by omega)]
  split_ifs <;> decide

/-- Witness for C8 at the concrete question mark example. -/
theorem c8_punctuation_tiebreak_witness :
    (fallback_sentiment_analysis "??").sentiment =
      (if countCh "??" '?' < countCh "??" '!' then 11/20
       else if countCh "??" '!' < countCh "??" '?' then 9/20
       else (1 : ℚ)/2) :=
  c8_punctuation_tiebreak.1 "??" (by decide)

/-! ### Lemmas about the keyword pipeline -/

theorem pyWordsAux_mem_length :
    ∀ (cs acc : List Char) (b : Bool) (r : List Char),
      r ∈ pyWordsAux acc b cs → 3 ≤ r.length := by
  intro cs
  induction cs with
  | nil =>
    intro acc b r hr
    rw [pyWordsAux] at hr
    by_cases hcond : b = true ∧ 3 ≤ acc.length
    · rw [if_pos hcond] at hr
      rcases List.mem_singleton.mp hr with rfl
      rw [List.length_reverse]; exact hcond.2
    · rw [if_neg hcond] at hr; simp at hr
  | cons c t ih =>
    intro acc b r hr
    rw [pyWordsAux] at hr
    by_cases hl : isLowerAZ c = true
    · rw [if_pos hl] at hr
      exact ih _ _ _ hr
    · rw [if_neg hl] at hr
      rcases List.mem_append.mp hr with h1 | h2
      · by_cases hcond : b = true ∧ 3 ≤ acc.length ∧ isWordChar c = false
        · rw [if_pos hcond] at h1
          rcases List.mem_singleton.mp h1 with rfl
          rw [List.length_reverse]; exact hcond.2.1
        · rw [if_neg hcond] at h1; simp at h1
      · exact ih _ _ _ h2

theorem dedupAux_subset {l : List String} :
    ∀ {seen : List String} {w : String}, w ∈ dedupAux seen l → w ∈ l := by
  induction l with
  | nil => intro seen w h; rw [dedupAux] at h; simp at h
  | cons x xs ih =>
    intro seen w h
    rw [dedupAux] at h
    by_cases hx : x ∈ seen
    · rw [if_pos hx] at h
      exact List.mem_cons_of_mem _ (ih h)
    · rw [if_neg hx] at h
      rcases List.mem_cons.mp h with rfl | hmem
      · exact List.mem_cons_self _ _
      · exact List.mem_cons_of_mem _ (ih hmem)

theorem dedupFirstSeen_eq_nil_iff {l : List String} :
    dedupFirstSeen l = [] ↔ l = [] := by
  cases l with
  | nil => simp [dedupFirstSeen, dedupAux]
  | cons x xs => simp [dedupFirstSeen, dedupAux]

theorem sortedKeywords_eq_nil_iff {text : String} :
    sortedKeywords text = [] ↔ significantWords text = [] := by
  unfold sortedKeywords
  rw [List.take_eq_nil_iff]
  constructor
  · intro h
    rcases h with h5 | hs
    · exact absurd h5 (by decide)
    · have hperm := List.perm_insertionSort
        (kwRel (significantWords text) (dedupFirstSeen (significantWords text)))
        (dedupFirstSeen (significantWords text))
      rw [hs] at hperm
      exact dedupFirstSeen_eq_nil_iff.mp hperm.symm.eq_nil
  · intro h
    right
    rw [dedupFirstSeen_eq_nil_iff.mpr h]
    rfl

theorem keywordsOf_eq_sorted (text : String) : keywordsOf text = sortedKeywords text := by
  unfold keywordsOf
  split_ifs with hcond
  · exact absurd (sortedKeywords_eq_nil_iff.mp hcond.1) hcond.2
  · rfl

theorem fallback_keywords_eq (text : String) :
    (fallback_sentiment_analysis text).keywords = sortedKeywords text := by
  show (keywordsOf text).take 5 = _
  rw [keywordsOf_eq_sorted]
  unfold sortedKeywords
  rw [List.take_take, min_self]

theorem mem_significantWords {text : String} {w : String}
    (h : w ∈ significantWords text) : w ∉ stop_words ∧ 3 ≤ w.length := by
  unfold significantWords at h
  rcases List.mem_filter.mp h with ⟨hmem, hp⟩
  refine ⟨of_decide_eq_true hp, ?_⟩
  rcases List.mem_map.mp hmem with ⟨cs, hcs, rfl⟩
  exact pyWordsAux_mem_length _ _ _ _ hcs

theorem mem_fallback_keywords {text : String} {w : String}
    (h : w ∈ (fallback_sentiment_analysis text).keywords) :
    w ∈ significantWords text := by
  rw [fallback_keywords_eq] at h
  unfold sortedKeywords at h
  have h1 := (List.take_sublist 5 _).subset h
  rw [List.mem_insertionSort] at h1
  exact dedupAux_subset h1

theorem fallback_keywords_pairwise (text : String) :
    List.Pairwise
      (kwRel (significantWords text) (dedupFirstSeen (significantWords text)))
      ((fallback_sentiment_analysis text).keywords) := by
  rw [fallback_keywords_eq]
  unfold sortedKeywords
  exact (List.sorted_insertionSort _ _).sublist (List.take_sublist 5 _)

/-- C6 counterexample: for the text dog1 dog1 the spec described keyword
pipeline over plain maximal alphabetic runs produces the keyword dog, but
the code, whose word pattern carries boundary assertions, extracts no
keyword at all, because each letter run is adjacent to a digit. -/
theorem c6_keywords_counterexample :
    specKeywords "dog1 dog1" = ["dog"] ∧
    (fallback_sentiment_analysis "dog1 dog1").keywords = [] := by decide

/-- C6 amended: keywords come from boundary respecting alphabetic runs of
length at least three: every keyword avoids the stop word set and has length
at least three, the list is exactly the first five entries of the stable
descending sort of the distinct significant words, it is pairwise ordered by
descending count with first seen tiebreak, and in the concrete example cat,
with count two, is ranked first. -/
theorem c6_keywords :
    (∀ text w, w ∈ (fallback_sentiment_analysis text).keywords →
      w ∉ stop_words ∧ 3 ≤ w.length) ∧
    (∀ text, (fallback_sentiment_analysis text).keywords =
      (List.insertionSort
        (kwRel (significantWords text) (dedupFirstSeen (significantWords text)))
        (dedupFirstSeen (significantWords text))).take 5) ∧
    (∀ text, List.Pairwise
      (kwRel (significantWords text) (dedupFirstSeen (significantWords text)))
      ((fallback_sentiment_analysis text).keywords)) ∧
    ((fallback_sentiment_analysis "The cat sat on the mat and the cat ran").keywords.head? =
      some "cat" ∧
     (significantWords "The cat sat on the mat and the cat ran").count "cat" = 2) := by
  refine ⟨?_, ?_, fallback_keywords_pairwise, by decide⟩
  · intro text w hw
    exact mem_significantWords (mem_fallback_keywords hw)
  · intro text
    exact fallback_keywords_eq text

/-- Witness for C6 applied to the top keyword of the cat example. -/
theorem c6_keywords_witness :
    ¬ "cat" ∈ stop_words ∧ 3 ≤ "cat".length :=
  c6_keywords.1 "The cat sat on the mat and the cat ran" "cat" (by decide)

/-- C9 counterexample: in a text made only of stop words there are words of
length at least three before filtering and none after, and the fallback
returns the empty keyword list instead of a nonempty one. -/
theorem c9_dead_branch_counterexample :
    pyWords (lowerList "the and for") ≠ [] ∧
    significantWords "the and for" = [] ∧
    (fallback_sentiment_analysis "the and for").keywords = [] := by decide

/-- C9 amended: the fallback keyword list is empty exactly when no
significant word survives the stop word filter; the recovery branch of
lines 337 to 339, which would return arbitrary significant words, requires
a nonempty significant word list together with an empty top five selection
and therefore never fires. -/
theorem c9_empty_keywords_iff (text : String) :
    (fallback_sentiment_analysis text).keywords = [] ↔
      significantWords text = [] := by
  rw [fallback_keywords_eq]
  exact sortedKeywords_eq_nil_iff

/-! ### Whitespace only inputs -/

theorem allWs_strip {text : String} (h : text.toList.all pyWs = true) :
    pyStripStr text = "" := by
  unfold pyStripStr pyStripL
  have h1 : text.toList.dropWhile pyWs = [] :=
    List.dropWhile_eq_nil_iff.mpr (fun x hx => List.all_eq_true.mp h x hx)
  rw [h1]
  rfl

theorem pyWordsAux_allNotLower {cs : List Char}
    (h : ∀ c ∈ cs, isLowerAZ c = false) : ∀ b, pyWordsAux [] b cs = [] := by
  induction cs with
  | nil => intro b; simp [pyWordsAux]
  | cons c t ih =>
    intro b
    rw [pyWordsAux]
    rw [if_neg (by simp [h c (List.mem_cons_self _ _)])]
    rw [if_neg (by simp)]
    simp [ih (fun x hx => h x (List.mem_cons_of_mem _ hx))]

theorem fallback_allWs {text : String} (h : text.toList.all pyWs = true) :
    fallback_sentiment_analysis text = ⟨1/2, [], "neutral"⟩ := by
  have hlow : ∀ c ∈ lowerList text, pyWs c = true := lowerList_allWs h
  have hpos : positiveScore (lowerList text) = 0 := by
    unfold positiveScore
    rw [sumScore_allWs hlow nonWs_strong_positive,
      sumScore_allWs hlow nonWs_moderate_positive]
  have hneg : negativeScore (lowerList text) = 0 := by
    unfold negativeScore
    rw [sumScore_allWs hlow nonWs_strong_negative,
      sumScore_allWs hlow nonWs_moderate_negative]
  have hnegw : hasNegation (lowerList text) = false := by
    unfold hasNegation
    exact containsAny_allWs hlow nonWs_negation
  have hscore : scoresAfterNegation (lowerList text) = (0, 0) := by
    unfold scoresAfterNegation
    rw [hnegw, if_neg (by simp), hpos, hneg]
  have htot : totalScoreOf text = 0 := by
    unfold totalScoreOf; rw [hscore]; rfl
  have hq : countCh text '?' = 0 := by
    unfold countCh
    rw [List.count_eq_zero]
    intro hmem
    exact absurd (List.all_eq_true.mp h _ hmem) (by decide)
  have hb : countCh text '!' = 0 := by
    unfold countCh
    rw [List.count_eq_zero]
    intro hmem
    exact absurd (List.all_eq_true.mp h _ hmem) (by decide)
  have hraw : rawSentiment text = 1/2 := by
    unfold rawSentiment
    rw [htot, hq, hb]
    simp
  have hsent : sentimentOf text = 1/2 := by
    unfold sentimentOf; rw [hraw]; decide
  have hlower : ∀ c ∈ lowerList text, isLowerAZ c = false :=
    fun c hc => pyWs_not_lowerAZ (hlow c hc)
  have hwords : pyWords (lowerList text) = [] := pyWordsAux_allNotLower hlower true
  have hsig : significantWords text = [] := by
    unfold significantWords; rw [hwords]; rfl
  have hkw : (fallback_sentiment_analysis text).keywords = [] := by
    rw [fallback_keywords_eq, sortedKeywords_eq_nil_iff]
    exact hsig
  have hbase : baseEmotion text = "neutral" := by
    unfold baseEmotion
    rw [hsent, if_neg (by norm_num), if_neg (by norm_num)]
  have hemo : emotionOf text = "neutral" := by
    unfold emotionOf
    rw [if_neg (by simp [containsAny_allWs hlow nonWs_joyful]),
      if_neg (by simp [containsAny_allWs hlow nonWs_sad]),
      if_neg (by simp [containsAny_allWs hlow nonWs_angry]),
      if_neg (by simp [containsAny_allWs hlow nonWs_calm])]
    exact hbase
  have hk2 : (keywordsOf text).take 5 = [] := hkw
  show (⟨sentimentOf text, (keywordsOf text).take 5, emotionOf text⟩ : SentimentResponse) = _
  rw [hsent, hk2, hemo]

/-- C10: the test_fallback endpoint performs no input validation: for empty
or whitespace only text it returns a normal result with sentiment one half,
no keywords and emotion neutral, while process_text rejects the same text
with the InvalidInput 400 error. -/
theorem c10_test_fallback_no_validation (text : String) (key : Bool)
    (outcome : ModelOutcome) (h : text.toList.all pyWs = true) :
    test_fallback text = Except.ok ⟨1/2, [], "neutral"⟩ ∧
      process_text text key outcome = Except.error ApiError.invalidInput := by
  constructor
  · unfold test_fallback
    rw [fallback_allWs h]
  · unfold process_text
    rw [if_pos (Or.inr (allWs_strip h))]

/-- Witness for C10 at a whitespace only text. -/
theorem c10_test_fallback_no_validation_witness :
    test_fallback " " = Except.ok ⟨1/2, [], "neutral"⟩ ∧
      process_text " " true ModelOutcome.timeout = Except.error ApiError.invalidInput :=
  c10_test_fallback_no_validation " " true ModelOutcome.timeout (by decide)

/-! ### Lemmas about response normalization -/

theorem asStrings_length : ∀ {l : List Json} {s : List String},
    asStrings l = some s → s.length = l.length := by
  intro l
  induction l with
  | nil =>
    intro s h
    rw [asStrings] at h
    injection h with h1
    subst h1
    rfl
  | cons a t ih =>
    intro s h
    cases a with
    | str v =>
      rw [asStrings] at h
      rcases Option.map_eq_some'.mp h with ⟨s2, ht, rfl⟩
      simp [ih ht]
    | null => simp [asStrings] at h
    | bool b => simp [asStrings] at h
    | num q => simp [asStrings] at h
    | arr l2 => simp [asStrings] at h
    | obj fs => simp [asStrings] at h

theorem normalizeResult_ok {v : Json} {r : SentimentResponse}
    (h : normalizeResult v = Except.ok r) :
    0 ≤ r.sentiment ∧ r.sentiment ≤ 1 ∧ r.keywords.length ≤ 5 := by
  unfold normalizeResult at h
  split at h
  · split at h
    · exact Except.noConfusion h
    · split at h
      · exact Except.noConfusion h
      · next ks hks =>
          injection h with h1
          subst h1
          refine ⟨pyClamp_nonneg _, pyClamp_le_one _, ?_⟩
          show ks.length ≤ 5
          rw [asStrings_length hks]
          exact List.length_take_le _ _
  · exact Except.noConfusion h

/-- C1 counterexample: a well formed model reply whose emotion field is the
empty string is passed through unchanged, so a response of process_text can
carry an empty emotion, refuting the nonempty emotion part of the claim. -/
theorem c1_empty_emotion_counterexample :
    process_text "hello" true
        (ModelOutcome.reply "\x7b\"sentiment\": 0.5, \"keywords\": [], \"emotion\": \"\"\x7d") =
      Except.ok ⟨1/2, [], ""⟩ := by rfl

/-- C1 amended: every successful response of process_text has sentiment in
the unit interval and at most five keywords; the emotion is nonempty
whenever the fallback produced the response, on a timeout or model error,
but a parsed model reply may carry an explicit empty emotion string. -/
theorem c1_response_bounds (text : String) (key : Bool) (outcome : ModelOutcome)
    (r : SentimentResponse) (h : process_text text key outcome = Except.ok r) :
    0 ≤ r.sentiment ∧ r.sentiment ≤ 1 ∧ r.keywords.length ≤ 5 ∧
      ((outcome = ModelOutcome.timeout ∨ ∃ m, outcome = ModelOutcome.modelError m) →
        r.emotion ≠ "") := by
  unfold process_text at h
  split at h
  · exact Except.noConfusion h
  · split at h
    · exact Except.noConfusion h
    · split at h
      · injection h with h1
        subst h1
        exact ⟨pyClamp_nonneg _, pyClamp_le_one _, List.length_take_le _ _,
          fun _ => emotionOf_ne_empty text⟩
      · injection h with h1
        subst h1
        exact ⟨pyClamp_nonneg _, pyClamp_le_one _, List.length_take_le _ _,
          fun _ => emotionOf_ne_empty text⟩
      · split at h
        · exact Except.noConfusion h
        · have hb := normalizeResult_ok h
          refine ⟨hb.1, hb.2.1, hb.2.2, ?_⟩
          rintro (hc | ⟨m, hc⟩) <;> exact ModelOutcome.noConfusion hc

/-- Witness for C1 on the fallback path at a concrete text. -/
theorem c1_response_bounds_witness :
    0 ≤ (fallback_sentiment_analysis "hello").sentiment ∧
      (fallback_sentiment_analysis "hello").sentiment ≤ 1 ∧
      (fallback_sentiment_analysis "hello").keywords.length ≤ 5 ∧
      ((ModelOutcome.timeout = ModelOutcome.timeout ∨
          ∃ m, ModelOutcome.timeout = ModelOutcome.modelError m) →
        (fallback_sentiment_analysis "hello").emotion ≠ "") :=
  c1_response_bounds "hello" true ModelOutcome.timeout
    (fallback_sentiment_analysis "hello") (by rfl)

/-- C2 counterexample: a reply for which the extraction regex finds a
candidate substring, shown explicitly, but whose candidate and whole text
both fail to parse as JSON; process_text answers the 500 parse error
instead of reaching the field extraction step. -/
theorem c2_repair_counterexample :
    jsonGroup (String.toList "\x7b\"sentiment\" x\x7d") =
      some (String.toList "\x7b\"sentiment\" x\x7d") ∧
    jsonParse (String.toList "\x7b\"sentiment\" x\x7d") = none ∧
    process_text "hi" true (ModelOutcome.reply "\x7b\"sentiment\" x\x7d") =
      Except.error ApiError.parseError := by
  refine ⟨by rfl, by rfl, by rfl⟩

/-- C2 amended: the repair cascade parses the extracted candidate first and
on failure parses the whole reply; a failure of that second parse is
surfaced as a parse error when a candidate existed, and the independent
field extraction step, with its documented defaults, runs exactly when the
regex found no candidate and the whole reply fails to parse. -/
theorem c2_repair_cascade :
    (∀ (r : String) (g : List Char) (v : Json),
      jsonGroup r.toList = some g → jsonParse g = some v →
      repair r = Except.ok v) ∧
    (∀ (r : String) (g : List Char) (v : Json),
      jsonGroup r.toList = some g → jsonParse g = none →
      jsonParse r.toList = some v → repair r = Except.ok v) ∧
    (∀ (r : String) (g : List Char),
      jsonGroup r.toList = some g → jsonParse g = none →
      jsonParse r.toList = none → repair r = Except.error ApiError.parseError) ∧
    (∀ (r : String) (v : Json),
      jsonGroup r.toList = none → jsonParse r.toList = some v →
      repair r = Except.ok v) ∧
    (∀ (r : String),
      jsonGroup r.toList = none → jsonParse r.toList = none →
      repair r = fieldExtract r.toList) ∧
    (∀ (cs : List Char),
      searchPat sentimentLit afterSentiment cs = none →
      searchPat keywordsLit afterKeywords cs = none →
      searchPat emotionLit afterEmotion cs = none →
      fieldExtract cs = Except.ok (Json.obj
        [("sentiment", Json.num (1/2)), ("keywords", Json.arr []),
         ("emotion", Json.str "neutral")])) := by
  refine ⟨?_, ?_, ?_, ?_, ?_, ?_⟩
  · intro r g v h1 h2
    simp only [repair, h1, h2]
  · intro r g v h1 h2 h3
    simp only [repair, h1, h2, h3]
  · intro r g h1 h2 h3
    simp only [repair, h1, h2, h3]
  · intro r v h1 h2
    simp only [repair, h1, h2]
  · intro r h1 h2
    simp only [repair, h1, h2]
  · intro cs h1 h2 h3
    simp only [fieldExtract, extractSentimentQ, extractKeywords, extractEmotion,
      h1, h2, h3, List.map_nil]

/-- Witness for C2 applying the unguarded second parse case at the concrete
bad reply. -/
theorem c2_repair_cascade_witness :
    repair "\x7b\"sentiment\" x\x7d" = Except.error ApiError.parseError :=
  c2_repair_cascade.2.2.1 "\x7b\"sentiment\" x\x7d"
    (String.toList "\x7b\"sentiment\" x\x7d") (by rfl) (by rfl) (by rfl)

end Aura


